import Mathlib

/-!
Verification of the RAG-AI question-answering pipeline.

This file gives a shallow embedding of the parts of the repository that the
verified properties concern: the session memory store (app/memory.py), the
page renderer (app/services/files_service.py), and the query orchestration
route (app/routes/ask_question.py) together with the document index it reads
(app/routes/list_files.py) and the delete operation it can dispatch
(app/routes/delete_file.py).

Conventions of the embedding:
- Python strings are Lean String, Python ints are Lean Int or Nat.
- Python None is modelled with Option; Python truthiness of strings and
  options is made explicit (empty string and none are falsy).
- Vector-store metadata values are a tagged union MetaVal (int or string),
  since page numbers occur with mixed typing.
- External services (the chat model, the embedding service, the vector
  store response, difflib close matching, the pixel rasteriser) are inputs
  of the model: the route is a function of the request, the stored state and
  an environment record holding the external responses.  Every external
  call the route makes is recorded in an ordered trace.
- Python exceptions that the code does not catch are modelled with Except.
-/

namespace RagAI

/-! ## Python-style string helpers

All string manipulation is done with structurally recursive functions over
character lists, so that every definition evaluates inside the kernel.
The repository handles ASCII filenames, commands and metadata, so case
folding is ASCII case folding. -/

/-- ASCII lowercasing of one character, as str.lower acts on the ASCII
inputs at hand. -/
def charLower (c : Char) : Char :=
  if 65 ≤ c.toNat ∧ c.toNat ≤ 90 then Char.ofNat (c.toNat + 32) else c

/-- str.lower. -/
def strLower (s : String) : String := String.mk (s.toList.map charLower)

/-- The pattern is an initial segment of the text. -/
def leadsWith : List Char → List Char → Bool
  | [], _ => true
  | _ :: _, [] => false
  | p :: ps, c :: cs => p == c && leadsWith ps cs

/-- The pattern occurs somewhere in the text. -/
def hasSubList (hay pat : List Char) : Bool :=
  leadsWith pat hay ||
    match hay with
    | [] => false
    | _ :: rest => hasSubList rest pat

/-- str.startswith. -/
def strStartsWith (s pat : String) : Bool := leadsWith pat.toList s.toList

/-- Split a character list at every occurrence of the separator. -/
def splitOnCharList (sep : Char) : List Char → List (List Char)
  | [] => [[]]
  | c :: rest =>
    match splitOnCharList sep rest with
    | [] => [[]]
    | h :: t => if c == sep then [] :: h :: t else (c :: h) :: t

/-- str.split with a one-character separator. -/
def strSplitOnChar (s : String) (sep : Char) : List String :=
  (splitOnCharList sep s.toList).map String.mk

/-- Split a character list at every character satisfying the predicate. -/
def splitPredList (p : Char → Bool) : List Char → List (List Char)
  | [] => [[]]
  | c :: rest =>
    match splitPredList p rest with
    | [] => [[]]
    | h :: t => if p c then [] :: h :: t else (c :: h) :: t

/-- str.strip: drop leading and trailing whitespace. -/
def trimCharList (l : List Char) : List Char :=
  ((l.dropWhile Char.isWhitespace).reverse.dropWhile Char.isWhitespace).reverse

/-- str.strip. -/
def strTrim (s : String) : String := String.mk (trimCharList s.toList)

/-- str.replace, non-overlapping and left to right; the fuel is the input
length, which one replacement step never increases below consumption. -/
def replaceSubAux (pat rep : List Char) : Nat → List Char → List Char
  | 0, l => l
  | _ + 1, [] => []
  | fuel + 1, l@(c :: rest) =>
    if !pat.isEmpty && leadsWith pat l then
      rep ++ replaceSubAux pat rep fuel (l.drop pat.length)
    else c :: replaceSubAux pat rep fuel rest

/-- str.replace. -/
def strReplace (s pat rep : String) : String :=
  String.mk (replaceSubAux pat.toList rep.toList s.toList.length s.toList)

/-- str.join over a separator (the inverse of split). -/
def strIntercalate (sep : String) : List String → String
  | [] => ""
  | h :: t => t.foldl (fun acc x => acc ++ sep ++ x) h

/-- Python substring containment, the binary operator in. -/
def containsSub (hay needle : String) : Bool :=
  hasSubList hay.toList needle.toList

/-- Python truthiness of a string: empty is falsy. -/
def pyStrTruthy (s : String) : Bool := !s.toList.isEmpty

/-- Python truthiness of an optional string: None and the empty string are falsy. -/
def pyOptStrTruthy : Option String → Bool
  | none => false
  | some s => pyStrTruthy s

/-- Index of the last dot in a character list, as used by str.rfind. -/
def rfindDot (cs : List Char) : Option Nat :=
  (List.range cs.length).foldl
    (fun acc j => if cs.getD j ' ' = '.' then some j else acc) none

/-- pathlib Path(p).stem : the final component without its extension.
The extension starts at the last dot provided that dot is neither the
first nor the last character of the component. -/
def pathStem (p : String) : String :=
  let base := (strSplitOnChar p '/').getLastD p
  let cs := base.toList
  match rfindDot cs with
  | some i => if 0 < i ∧ i + 1 < cs.length then String.mk (cs.take i) else base
  | none => base

/-- to_file_id from ask_question.py: lowercased stem, empty for a falsy name. -/
def to_file_id (filename : String) : String :=
  if pyStrTruthy filename then strLower (pathStem filename) else ""

/-! ## Metadata values -/

/-- A metadata value stored in the vector collection: int or string. -/
inductive MetaVal where
  | intV : Int → MetaVal
  | strV : String → MetaVal
deriving DecidableEq

/-- Chunk metadata: the keys ask_question.py reads.  Absent keys are none. -/
structure ChunkMeta where
  file_id : Option String := none
  source : Option String := none
  page : Option MetaVal := none
  pages : Option MetaVal := none
  place : Option MetaVal := none
  chunk_index : Option Int := none
deriving DecidableEq

instance : Inhabited ChunkMeta := ⟨{}⟩

/-! ## Session memory store (app/memory.py)

The chat_history table is modelled as a list of rows in insertion order;
the timestamp column is server-assigned at insertion, so ordering by
timestamp coincides with list order. -/

structure ChatRow where
  session_id : String
  role : String
  content : String
deriving DecidableEq

/-- get_session_context: the last limit*2 rows of this session, ordered by
timestamp descending then reversed back to chronological order, each
rendered as a User/Assistant line and joined with newlines. -/
def get_session_context (db : List ChatRow) (session_id : String)
    (limit : Nat := 5) : String :=
  let forSession := db.filter (fun r => r.session_id == session_id)
  let messages := ((forSession.reverse).take (limit * 2)).reverse
  strIntercalate "\n"
    (messages.map (fun m =>
      (if m.role == "user" then "User" else "Assistant") ++ ": " ++ m.content))

/-- update_session_memory: add the user row, add the assistant row, commit.
The commit makes both inserts visible as one atomic state transition. -/
def update_session_memory (db : List ChatRow) (session_id : String)
    (user_text assistant_text : String) : List ChatRow :=
  db ++ [⟨session_id, "user", user_text⟩, ⟨session_id, "assistant", assistant_text⟩]

/-! ## Page renderer (app/services/files_service.py, render_page_to_base64)

The PyMuPDF document is abstracted as a page count, a geometry per page,
and a rasterising device: pixmap pageIdx zoom clip returns the base64 png
string (pixel generation, tobytes and b64encode collapsed into the one
external call) or an error when rasterising raises.  fitz.open itself can
raise, so the document argument is an Except. -/

structure PdfRect where
  x0 : Rat
  y0 : Rat
  x1 : Rat
  y1 : Rat
deriving DecidableEq

def PdfRect.width (r : PdfRect) : Rat := r.x1 - r.x0
def PdfRect.height (r : PdfRect) : Rat := r.y1 - r.y0

structure FitzDoc where
  pageCount : Nat
  pageRect : Nat → PdfRect
  pixmap : Nat → Rat → Option PdfRect → Except String String

/-- The clip rectangle of the top-half slice (index 1). -/
def topClip (rect : PdfRect) : PdfRect :=
  ⟨0, 0, rect.width, rect.height / 2 + 250⟩

/-- The clip rectangle of the bottom-half slice (index 2). -/
def bottomClip (rect : PdfRect) : PdfRect :=
  ⟨0, rect.height / 2 - 250, rect.width, rect.height⟩

/-- The clip rectangle of the centered slice (index 3): middle 60 percent. -/
def centerClip (rect : PdfRect) : PdfRect :=
  ⟨0, rect.height * (20 / 100), rect.width, rect.height * (80 / 100)⟩

/-- render_page_to_base64.  Every exception raised inside the try block is
caught and yields the empty list; an out-of-range page index returns the
empty list before any rendering. -/
def render_page_to_base64 (doc : Except String FitzDoc) (page_number : Int)
    (zoom : Rat := 3) : List String :=
  match doc with
  | .error _ => []
  | .ok d =>
    let page_index := page_number - 1
    if page_index < 0 ∨ page_index ≥ (d.pageCount : Int) then []
    else
      let pi := page_index.toNat
      let rect := d.pageRect pi
      match d.pixmap pi 2 none with
      | .error _ => []
      | .ok mapImg =>
        match d.pixmap pi zoom (some (topClip rect)) with
        | .error _ => []
        | .ok t =>
          match d.pixmap pi zoom (some (bottomClip rect)) with
          | .error _ => []
          | .ok b =>
            match d.pixmap pi zoom (some (centerClip rect)) with
            | .error _ => []
            | .ok c => [mapImg, t, b, c]

/-! ## Vector-store filters (ask_question.py lines 287-325)

A where-filter is a boolean expression tree over equality predicates on
metadata keys.  The empty dict (no filter) is modelled as none at use
sites. -/

inductive WhereFilter where
  | eqf : String → MetaVal → WhereFilter
  | orf : List WhereFilter → WhereFilter
  | andf : List WhereFilter → WhereFilter

/-- Look a metadata key up as the equality predicates do. -/
def metaLookup (m : ChunkMeta) (k : String) : Option MetaVal :=
  match k with
  | "file_id" => m.file_id.map MetaVal.strV
  | "source" => m.source.map MetaVal.strV
  | "page" => m.page
  | "pages" => m.pages
  | "place" => m.place
  | "chunk_index" => m.chunk_index.map MetaVal.intV
  | _ => none

mutual

/-- Chroma where-filter satisfaction for one metadata record. -/
def evalWhere (m : ChunkMeta) : WhereFilter → Bool
  | .eqf k v => metaLookup m k == some v
  | .orf subs => evalAny m subs
  | .andf subs => evalAll m subs

def evalAny (m : ChunkMeta) : List WhereFilter → Bool
  | [] => false
  | f :: fs => evalWhere m f || evalAny m fs

def evalAll (m : ChunkMeta) : List WhereFilter → Bool
  | [] => true
  | f :: fs => evalWhere m f && evalAll m fs

end

/-- An absent filter matches every record. -/
def evalWhereOpt (m : ChunkMeta) : Option WhereFilter → Bool
  | none => true
  | some f => evalWhere m f

/-- one_file_filter: match by normalized file_id or by exact source filename. -/
def one_file_filter (fname : String) : WhereFilter :=
  .orf [.eqf "file_id" (.strV (to_file_id fname)), .eqf "source" (.strV fname)]

/-- Lines 295-302: the file part of the filter from the matched files.
multi_file_mode is matched_files.length > 1; with exactly one file the
single filter is used; with none the filter stays empty. -/
def buildFileFilters (matched_files : List String) : Option WhereFilter :=
  if matched_files ≠ [] ∧ matched_files.length > 1 then
    some (.orf (matched_files.map one_file_filter))
  else
    match matched_files.head? with
    | some f => some (one_file_filter f)
    | none => none

/-- Lines 306-317: one OR over page equals int and page equals stringified
int for every target page, AND-combined with the file part when present. -/
def buildFilters (matched_files : List String) (target_pages : List Int) :
    Option WhereFilter :=
  let filters := buildFileFilters matched_files
  if target_pages ≠ [] then
    let page_conditions := target_pages.foldr
      (fun p acc => WhereFilter.eqf "page" (.intV p) ::
        WhereFilter.eqf "page" (.strV (toString p)) :: acc) []
    let page_filter := WhereFilter.orf page_conditions
    match filters with
    | some f => some (.andf [f, page_filter])
    | none => some page_filter
  else filters

/-! ## Regular-expression models

ask_question.py uses a handful of fixed case-insensitive regular
expressions.  Word-bounded alternatives of literal phrases are modelled by
a direct scan; each phrase starts and ends with a word character, so the
boundary test reduces to the neighbouring characters not being word
characters. -/

/-- Python word character for the ASCII inputs at hand. -/
def isWordChar (c : Char) : Bool := c.isAlphanum || c = '_'

/-- A boundary is the string edge or a non-word character. -/
def boundaryOk : Option Char → Bool
  | none => true
  | some c => !isWordChar c

/-- The pattern characters occur at the head of hay with a word boundary
right after them. -/
def phraseHere (pat hay : List Char) : Bool :=
  leadsWith pat hay && boundaryOk (hay.drop pat.length).head?

/-- Scan hay for a word-bounded occurrence of pat; prev is the character
just before the current position. -/
def hasPhraseFrom (pat : List Char) : Option Char → List Char → Bool
  | prev, hay =>
    (boundaryOk prev && phraseHere pat hay) ||
    match hay with
    | [] => false
    | c :: rest => hasPhraseFrom pat (some c) rest

/-- re.search of a word-bounded literal phrase, case-insensitively. -/
def hasWordPhrase (phrase hay : String) : Bool :=
  hasPhraseFrom (strLower phrase).toList none (strLower hay).toList

/-- re.search of a word-bounded alternation of literal phrases. -/
def hasAnyWordPhrase (phrases : List String) (hay : String) : Bool :=
  phrases.any (fun p => hasWordPhrase p hay)

/-! ## Page-number extraction (ask_question.py lines 86-97)

Model of re.findall of the pattern: the literal page, an optional s, one
or more whitespace characters, then a captured maximal run of characters
from the class digits, whitespace, comma, a, n, d, ampersand.  All
case-insensitive.  Because whitespace belongs to the captured class, a
greedy match that finds no class character after the maximal whitespace
run gives one whitespace character back to the capture when it can. -/

def isPageClassChar (c : Char) : Bool :=
  c.isDigit || c.isWhitespace || c = ',' || c = '&' ||
    charLower c = 'a' || charLower c = 'n' || charLower c = 'd'

/-- Try the tail of the pattern (whitespace then capture) at r; return the
captured characters and the remainder after the whole match. -/
def matchPageTail (r : List Char) : Option (List Char × List Char) :=
  let w := r.takeWhile Char.isWhitespace
  let rw := r.drop w.length
  if w.isEmpty then none
  else
    let cap := rw.takeWhile isPageClassChar
    if !cap.isEmpty then some (cap, rw.drop cap.length)
    else if w.length ≥ 2 then some (w.drop (w.length - 1), rw)
    else none

/-- Case-insensitive literal match of page at the head. -/
def pageLitHere : List Char → Option (List Char)
  | 'p' :: a :: g :: e :: rest =>
    if charLower a = 'a' ∧ charLower g = 'g' ∧ charLower e = 'e' then some rest else none
  | 'P' :: a :: g :: e :: rest =>
    if charLower a = 'a' ∧ charLower g = 'g' ∧ charLower e = 'e' then some rest else none
  | _ => none

/-- One attempted match of the full pattern at the current position. -/
def matchPagesAt (l : List Char) : Option (List Char × List Char) :=
  match pageLitHere l with
  | none => none
  | some r1 =>
    match r1 with
    | c :: r2 =>
      if charLower c = 's' then
        match matchPageTail r2 with
        | some out => some out
        | none => matchPageTail r1
      else matchPageTail r1
    | [] => matchPageTail r1

/-- re.findall: non-overlapping matches scanning left to right; fuel is the
remaining length, each successful match consumes at least one character. -/
def findPageSections : Nat → List Char → List (List Char)
  | 0, _ => []
  | _ + 1, [] => []
  | fuel + 1, l@(_ :: rest) =>
    match matchPagesAt l with
    | some (cap, after) => cap :: findPageSections fuel after
    | none => findPageSections fuel rest

/-- Maximal digit runs, fuelled by the input length: every step consumes
at least one character. -/
def digitRunsAux : Nat → List Char → List (List Char)
  | 0, _ => []
  | _ + 1, [] => []
  | fuel + 1, c :: rest =>
    if c.isDigit then
      let run := c :: rest.takeWhile Char.isDigit
      run :: digitRunsAux fuel (rest.drop (rest.takeWhile Char.isDigit).length)
    else digitRunsAux fuel rest

/-- Maximal digit runs inside a section, as re.findall of one-or-more digits. -/
def digitRuns (l : List Char) : List (List Char) :=
  digitRunsAux l.length l

/-- int() of a digit run. -/
def digitsToInt (cs : List Char) : Int :=
  (cs.foldl (fun acc c => acc * 10 + (c.toNat - 48)) (0 : Nat) : Nat)

/-- sorted(list(set(xs))): ascending distinct values. -/
def sortedDistinct (xs : List Int) : List Int :=
  (xs.foldl (fun acc n => if n ∈ acc then acc else acc ++ [n]) []).insertionSort (· ≤ ·)

/-- Lines 86-94: all page numbers mentioned in the query, deduplicated and
sorted ascending. -/
def extractTargetPages (query : String) : List Int :=
  let sections := findPageSections query.toList.length query.toList
  sortedDistinct ((sections.map digitRuns).flatten.map digitsToInt)

/-! ## Grouping of retrieval results (ask_question.py lines 526-549) -/

/-- One retrieved chunk as stored in a group: chunk_index defaults to 0 and
page to the string unknown, as in the dict literal of line 541. -/
structure RetChunk where
  text : String
  chunk_index : Int
  page : MetaVal
deriving DecidableEq

/-- One group of chunks, keyed by file_id with fallbacks. -/
structure GroupInfo where
  file_id : Option String
  source : Option String
  chunks : List RetChunk
  place : MetaVal
  pages : MetaVal
deriving DecidableEq

/-- The group key: file_id or source or the sentinel, with Python string
truthiness (None and the empty string fall through). -/
def groupKey (meta : ChunkMeta) : String :=
  if pyOptStrTruthy meta.file_id then meta.file_id.getD ""
  else if pyOptStrTruthy meta.source then meta.source.getD ""
  else "unknown-file"

def mkRetChunk (doc : String) (meta : ChunkMeta) : RetChunk :=
  { text := doc
    chunk_index := meta.chunk_index.getD 0
    page := meta.page.getD (.strV "unknown") }

/-- Insert one (document, metadata) pair into the insertion-ordered group
map, appending a new group at the end when the key is new. -/
def upsertGroup (grouped : List (String × GroupInfo)) (doc : String)
    (meta : ChunkMeta) : List (String × GroupInfo) :=
  let key := groupKey meta
  match grouped.find? (fun g => g.1 == key) with
  | some _ =>
    grouped.map (fun g =>
      if g.1 == key then (g.1, { g.2 with chunks := g.2.chunks ++ [mkRetChunk doc meta] })
      else g)
  | none =>
    grouped ++ [(key,
      { file_id := meta.file_id
        source := meta.source
        chunks := [mkRetChunk doc meta]
        place := meta.place.getD (.strV "unknown")
        pages := meta.pages.getD (.strV "unknown") })]

/-- Lines 527-545: the grouping loop over zip(retrieved_docs, retrieved_metas). -/
def groupChunks (docs : List String) (metas : List ChunkMeta) :
    List (String × GroupInfo) :=
  (docs.zip metas).foldl (fun grouped dm => upsertGroup grouped dm.1 dm.2) []

/-- The order the source sorts group chunks by: the key is the pair
(chunk_index, chunk_index), which orders by chunk_index alone. -/
def chunkLe (a b : RetChunk) : Prop := a.chunk_index ≤ b.chunk_index

instance : DecidableRel chunkLe := fun a b =>
  inferInstanceAs (Decidable (a.chunk_index ≤ b.chunk_index))

instance : IsTotal RetChunk chunkLe := ⟨fun a b => Int.le_total a.chunk_index b.chunk_index⟩

instance : IsTrans RetChunk chunkLe := ⟨fun _ _ _ h1 h2 => Int.le_trans h1 h2⟩

/-- Python list.sort is stable; a stable ascending sort by chunk_index. -/
def sortChunks (l : List RetChunk) : List RetChunk :=
  l.insertionSort chunkLe

/-- Lines 526-549: group, then sort each group by chunk_index. -/
def groupAndSort (docs : List String) (metas : List ChunkMeta) :
    List (String × GroupInfo) :=
  (groupChunks docs metas).map (fun g => (g.1, { g.2 with chunks := sortChunks g.2.chunks }))

/-! ## Visual re-ranker (ask_question.py lines 354-398) -/

/-- The visual-reference keyword alternation, searched case-insensitively. -/
def hasVisualKeyword (text : String) : Bool :=
  ["figure", "fig.", "drawing", "diagram", "schematic", "exploded view"].any
    (fun kw => containsSub (strLower text) kw)

/-- Base score (limit - i) plus the fixed +10 visual bonus. -/
def candidateScore (limit i : Nat) (text : String) : Int :=
  ((limit : Int) - (i : Int)) + (if hasVisualKeyword text then 10 else 0)

/-- Stable descending sort by score (candidates.sort with reverse=True). -/
def sortCandidatesDesc (l : List (ChunkMeta × Int)) : List (ChunkMeta × Int) :=
  l.insertionSort (fun a b => a.2 ≥ b.2)

/-- Python int() on a metadata value; a non-numeric string raises. -/
def pyIntOfString (s : String) : Option Int :=
  match trimCharList s.toList with
  | '-' :: ds => if ds ≠ [] ∧ ds.all Char.isDigit then some (-(digitsToInt ds)) else none
  | '+' :: ds => if ds ≠ [] ∧ ds.all Char.isDigit then some (digitsToInt ds) else none
  | ds => if ds ≠ [] ∧ ds.all Char.isDigit then some (digitsToInt ds) else none

def metaValToInt : MetaVal → Option Int
  | .intV n => some n
  | .strV s => pyIntOfString s

/-- Lines 360-398: keyword re-ranking of the top five retrieved chunks.
Runs only when no explicit page was extracted and retrieval is nonempty;
returns the updated target pages and matched file.  A page value that
int() cannot parse raises, hence the Except. -/
def rerankVision (target_pages : List Int) (retrieved_metas : List ChunkMeta)
    (retrieved_docs : List String) (matched_file : Option String) :
    Except String (List Int × Option String) :=
  if target_pages = [] ∧ retrieved_metas ≠ [] ∧ retrieved_docs ≠ [] then
    let limit := min 5 retrieved_metas.length
    let candidates := (List.range limit).map (fun i =>
      (retrieved_metas.getD i default,
       candidateScore limit i (retrieved_docs.getD i "")))
    let sorted := sortCandidatesDesc candidates
    let top := (sorted.headD (default, 0)).1
    match top.page with
    | none => .ok (target_pages, matched_file)
    | some pv =>
      let detected_source := top.source
      let matched1 := if !pyOptStrTruthy matched_file then detected_source
                      else matched_file
      if matched1 == detected_source then
        match metaValToInt pv with
        | some n => .ok (target_pages ++ [n], matched1)
        | none => .error "invalid literal for int() with base 10"
      else .ok (target_pages, matched1)
  else .ok (target_pages, matched_file)

/-! ## Document index (app/routes/list_files.py) -/

/-- One record of the vector collection: document text plus metadata. -/
structure StoredChunk where
  text : String
  meta : ChunkMeta
deriving DecidableEq

/-- One aggregated entry of the list_files response.  The sources and pages
sets are kept as insertion-ordered distinct lists; their final sorting is
presentation only and is not consumed by the route under verification. -/
structure FileEntry where
  file_id : String
  filename : Option String
  place : Option MetaVal
  total_pages : Int
  sources : List String
  pagesSeen : List MetaVal
deriving DecidableEq

def addDistinct {α} [BEq α] (l : List α) (x : α) : List α :=
  if l.contains x then l else l ++ [x]

/-- Fold one metadata record into its file entry, as the loop body of
list_files.  A string-typed pages value would raise a TypeError in the
max call of the source and is not modelled. -/
def foldFileEntry (e : FileEntry) (m : ChunkMeta) : FileEntry :=
  { e with
    filename := match m.source with | some s => some s | none => e.filename
    place := match m.place with | some p => some p | none => e.place
    sources := addDistinct e.sources (m.source.getD "unknown")
    pagesSeen := match m.page with | some p => addDistinct e.pagesSeen p | none => e.pagesSeen
    total_pages := match m.pages with
      | some (.intV n) => if n ≠ 0 then max e.total_pages n else e.total_pages
      | _ => e.total_pages }

def freshFileEntry (fid : String) : FileEntry :=
  { file_id := fid, filename := none, place := none, total_pages := 0
    sources := [], pagesSeen := [] }

/-- list_files: group all collection metadata by file_id (default unknown)
in first-seen order. -/
def listFilesModel (collection : List StoredChunk) : List FileEntry :=
  collection.foldl (fun entries c =>
    let fid := c.meta.file_id.getD "unknown"
    match entries.find? (fun e => e.file_id == fid) with
    | some _ => entries.map (fun e => if e.file_id == fid then foldFileEntry e c.meta else e)
    | none => entries ++ [foldFileEntry (freshFileEntry fid) c.meta]) []

/-! ## Application state and the delete operation (app/routes/delete_file.py) -/

structure AppState where
  chatHistory : List ChatRow
  activeFiles : List (String × String)
  collection : List StoredChunk
  uploads : List String
deriving DecidableEq

def get_last_active_file (st : AppState) (session_id : String) : Option String :=
  (st.activeFiles.find? (fun kv => kv.1 == session_id)).map (fun kv => kv.2)

def set_last_active_file (st : AppState) (session_id filename : String) : AppState :=
  if (st.activeFiles.find? (fun kv => kv.1 == session_id)).isSome then
    { st with activeFiles := st.activeFiles.map (fun kv =>
        if kv.1 == session_id then (kv.1, filename) else kv) }
  else { st with activeFiles := st.activeFiles ++ [(session_id, filename)] }

/-- delete_file: look the normalized id up, delete the matching vector
records, remove the listed source files from uploads, and report the
remaining file count.  The 404 on an unknown id happens before any
mutation; failures of the external stores themselves are not modelled. -/
def delete_file_model (st : AppState) (file_id : String) :
    Except String (Int × AppState) :=
  let normalized := strTrim (strLower file_id)
  let files := listFilesModel st.collection
  match files.find? (fun f => f.file_id == normalized) with
  | none => .error ("404: File \x27" ++ file_id ++ "\x27 not found in database.")
  | some mf =>
    let collection1 := st.collection.filter
      (fun c => !(c.meta.file_id == some normalized))
    let uploads1 := st.uploads.filter (fun u => !(mf.sources.contains u))
    let st1 := { st with collection := collection1, uploads := uploads1 }
    .ok ((listFilesModel collection1).length, st1)

/-! ## The ask_question route (app/routes/ask_question.py)

External collaborators are inputs: the classification completion content,
the vector-store response for the one issued query, the close-match oracle
for difflib, the page rasteriser, and the main chat completion.  Every
external call made by the route is recorded in order in the calls trace.
Presentation-only steps (markdown-to-HTML conversion, the clickable source
links) are not modelled; the answer field carries the text the route
produced.  Python exceptions the route does not catch surface as the
error outcome. -/

inductive CallEv where
  | classifyCall
  | embedCall (text : String)
  | vectorQueryCall
  | renderCall (file : String) (page : Int)
  | chatMainCall
  | chatToolRound
  | deleteCall (fid : String)
deriving DecidableEq

/-- Embedding-service events of the call trace. -/
def isEmbedEv : CallEv → Bool
  | .embedCall _ => true
  | _ => false

structure PageImage where
  page : Int
  b64 : String
  slice_index : Nat
deriving DecidableEq

structure Env where
  activeDbName : String
  classify : String
  queryDocs : List String
  queryMetas : List ChunkMeta
  render : String → Int → List String
  closeMatch1 : String → List String → Option String
  debugDump : List StoredChunk → String
  chatContent : String
  chatHasToolCalls : Bool
  secondContent : String

structure AskResult where
  outcome : Except String String
  state : AppState
  calls : List CallEv
  usedDocs : List String
  usedMetas : List ChunkMeta
  matchedFile : Option String
  pageImages : List PageImage

/-- An early JSONResponse return: no retrieval context was assembled. -/
def earlyReturn (answer : String) (st : AppState) (calls : List CallEv) : AskResult :=
  { outcome := .ok answer, state := st, calls := calls
    usedDocs := [], usedMetas := [], matchedFile := none, pageImages := [] }

def pyOptIntTruthy : Option Int → Bool
  | none => false
  | some n => n ≠ 0

/-- Lines 140-147: the risky-word stop list of the rescue heuristic. -/
def riskyWords : List String :=
  ["the", "a", "an", "of", "in", "and", "or", "to", "for", "file", "pdf",
   "book", "story", "about", "what", "happens", "is", "does", "great",
   "strange", "case", "study", "legend", "island", "doctor", "guide"]

/-- Lines 136-167: when the classifier said None (and not ALL_FILES), look
for strong filename keywords in the query and override the None. -/
def rescueRaw (query : String) (available_files : List String)
    (llm_raw : String) : String :=
  if containsSub llm_raw "None" ∧ ¬containsSub llm_raw "ALL_FILES" then
    let nq := strLower query
    let detected := available_files.filter (fun fname =>
      let clean := strReplace (strReplace (strLower (pathStem fname)) "-" " ") "_" " "
      let parts := ((splitPredList (fun c => c.isWhitespace) clean.toList).map
        String.mk).filter (fun w => !w.toList.isEmpty)
      let strong := parts.filter (fun w => !(riskyWords.contains w) ∧ w.length > 3)
      strong.any (fun kw => containsSub nq kw))
    if detected ≠ [] then strIntercalate "," detected else llm_raw
  else llm_raw

/-- The classification output after the rescue heuristic, as the
interceptors see it. -/
def resolvedRaw (env : Env) (query : String) (available_files : List String) : String :=
  rescueRaw query available_files (strTrim env.classify)

/-- Case-insensitive filename lookup mirroring the dict built on line 223:
later duplicates overwrite earlier ones. -/
def lcLookup (available_files : List String) (t : String) : Option String :=
  available_files.foldl (fun acc f => if strLower f == strLower t then some f else acc) none

/-- Lines 218-237: split the classifier output on commas and validate each
token by exact, case-insensitive, then fuzzy match. -/
def validateTokens (closeMatch1 : String → List String → Option String)
    (llm_raw : String) (available_files : List String) : List String :=
  let tokens := ((strSplitOnChar llm_raw ',').map strTrim).filter
    (fun t => !t.toList.isEmpty)
  tokens.foldl (fun valid t =>
    if available_files.contains t then valid ++ [t]
    else match lcLookup available_files t with
      | some f => valid ++ [f]
      | none => match closeMatch1 t available_files with
        | some c => valid ++ [c]
        | none => valid) []

def showOptStr : Option String → String
  | none => "None"
  | some s => s

def showMetaVal : MetaVal → String
  | .intV n => toString n
  | .strV s => s

def showOptMetaVal : Option MetaVal → String
  | none => "None"
  | some v => showMetaVal v

/-- Place sort key of the COMMAND_LIST interceptor: int(place or 0). -/
def placeKey (e : FileEntry) : Int :=
  match e.place with
  | some (.intV n) => n
  | some (.strV s) => if s.toList.isEmpty then 0 else (pyIntOfString s).getD 0
  | none => 0

/-- Lines 169-191: the COMMAND_LIST interceptor body for a nonempty corpus. -/
def listCommandAnswer (files : List FileEntry) : String :=
  let sorted := files.insertionSort (fun a b => placeKey a ≤ placeKey b)
  let items := sorted.map (fun f =>
    "<li><strong>" ++ showOptStr f.filename ++ "</strong> (Place: " ++
      showOptMetaVal f.place ++ ", Pages: " ++ toString f.total_pages ++ ")</li>")
  "<h4>Found " ++ toString files.length ++ " file(s) in the database:</h4><ul>" ++
    String.join items ++ "</ul>"

/-- Lines 498-518: backfill pages, place and source from the document index
when the chunk metadata lacks them or holds the unknown sentinel. -/
def mergeMeta (file_index : List FileEntry) (m : ChunkMeta) : ChunkMeta :=
  let fid := m.file_id.getD "unknown"
  match file_index.find? (fun e => e.file_id == fid) with
  | none => m
  | some e =>
    let idxSource : String := e.filename.getD "unknown"
    let idxPages : MetaVal := .intV e.total_pages
    let idxPlace : MetaVal := e.place.getD (.strV "unknown")
    { m with
      pages := if m.pages = none ∨ m.pages = some (.strV "unknown")
               then some idxPages else m.pages
      place := if m.place = none ∨ m.place = some (.strV "unknown")
               then some idxPlace else m.place
      source := if m.source = none ∨ m.source = some "unknown"
                then some idxSource else m.source }

/-- Lines 404-427: render every target page of the matched file; the
rasteriser returns the empty list when rendering failed or raised. -/
def renderPages (render : String → Int → List String) (file : String)
    (pages : List Int) : List PageImage × List CallEv :=
  pages.foldl (fun acc p =>
    let slices := render file p
    (acc.1 ++ slices.enum.map (fun ib =>
      { page := p, b64 := "data:image/png;base64," ++ ib.2, slice_index := ib.1 }),
     acc.2 ++ [.renderCall file p])) ([], [])

/-- Lines 552-586: one text block per group, a header plus per-chunk
markers, groups joined with blank-line separators. -/
def buildContext (grouped : List (String × GroupInfo)) : String :=
  let parts := grouped.map (fun g =>
    let info := g.2
    let representative_page := match info.chunks.head? with
      | some c => showMetaVal c.page
      | none => "unknown"
    let header :=
      "=== " ++ g.1 ++ " ===\n\n" ++
      "Filename: " ++ showOptStr info.source ++ "\n" ++
      "File ID: " ++ showOptStr info.file_id ++ "\n" ++
      "Place: " ++ showMetaVal info.place ++ "\n" ++
      "Page: " ++ representative_page ++ "\n" ++
      "Total Pages: " ++ showMetaVal info.pages ++ "\n" ++
      "=== " ++ g.1 ++ " ===\n"
    let chunk_texts := info.chunks.map (fun c =>
      "\n--- FILE: " ++ showOptStr info.source ++ " | PAGE: " ++
        showMetaVal c.page ++ " of " ++ showMetaVal info.pages ++
        " | PLACE: " ++ showMetaVal info.place ++ " ---\n\n" ++ c.text)
    header ++ strIntercalate "\n\n" chunk_texts)
  strIntercalate "\n\n\n" parts

/-- The synthetic chunk metadata of the vision fallback (lines 485-491). -/
def fallbackMeta (matched_file : String) (page_num : Option Int) : ChunkMeta :=
  { source := some matched_file
    file_id := some (to_file_id matched_file)
    page := page_num.map MetaVal.intV
    place := some (.strV "unknown")
    chunk_index := some 0 }

/-- The synthetic chunk text of the vision fallback. -/
def fallbackDocText : String := "(No text found. Analyzing attached page image.)"

/-- The refusal answer of the delete interceptor for non-admin callers. -/
def refusalAnswer : String :=
  "I\x27m sorry, I cannot delete that file. You do not have administrator privileges."

/-- The crude memory filter of lines 68-75: drop prior lines that mention a
pdf other than the referenced file. -/
def filterPriorContext (prior : String) (file_ref : String) : String :=
  strIntercalate "\n" ((strSplitOnChar prior '\n').filter (fun line =>
    ¬containsSub (strLower line) ".pdf" ∨
      containsSub (strLower line) (strLower file_ref)))

/-- Lines 217-272: token validation and the fallback heuristics resolving
the final list of matched files. -/
def computeValid (env : Env) (query : String) (available_files : List String)
    (active_file : Option String) (llm_raw : String) (target_pages0 : List Int)
    (page_num : Option Int) : List String :=
  let valid0 := validateTokens env.closeMatch1 llm_raw available_files
  let global0 := hasAnyWordPhrase ["all files", "all documents"] query
  let pageNumTruthy := pyOptIntTruthy page_num
  let is_global_compare :=
    if ¬pageNumTruthy ∧ target_pages0 = [] then
      global0 || hasAnyWordPhrase ["compare", "vs", "versus", "both"] query
    else global0
  let valid1 := if containsSub llm_raw "ALL_FILES" || is_global_compare then
      (if valid0 = [] then available_files else valid0) else valid0
  if valid1 ≠ [] then valid1
  else if hasAnyWordPhrase ["all files", "all documents"] query then available_files
  else if hasAnyWordPhrase ["compare", "vs", "versus", "both"] query then
    (if target_pages0 ≠ [] ∧ pyOptStrTruthy active_file then [active_file.getD ""]
     else available_files)
  else if pyOptStrTruthy active_file then [active_file.getD ""]
  else []

/-- Lines 274-835: everything from mode assignment to the final answer:
active-file update, filter construction, embedding, retrieval, re-ranking,
rendering, the vision fallback, metadata merge, grouping, context
assembly, the chat rounds, and the session-memory update. -/
def retrievalPhase (env : Env) (session_id query : String) (st : AppState)
    (matched_files : List String) (target_pages0 : List Int)
    (page_num : Option Int) (calls0 : List CallEv) : AskResult :=
  let pageNumTruthy := pyOptIntTruthy page_num
  let matched_file0 := matched_files.head?
  let st1 := if pyOptStrTruthy matched_file0 then
      set_last_active_file st session_id (matched_file0.getD "") else st
  let filters0 := buildFilters matched_files target_pages0
  let filters :=
    if hasAnyWordPhrase ["all files", "compare", "vs", "versus", "both"] query then
      (if hasWordPhrase "all files" query then none else filters0)
    else filters0
  let embedText := if pageNumTruthy then "page lookup" else query
  let calls1 := calls0 ++ [CallEv.embedCall embedText, CallEv.vectorQueryCall]
  let retrieved_docs0 := env.queryDocs
  let retrieved_metas0 := env.queryMetas
  let _ := filters
  match rerankVision target_pages0 retrieved_metas0 retrieved_docs0 matched_file0 with
  | .error e =>
    { outcome := .error e, state := st1, calls := calls1
      usedDocs := [], usedMetas := [], matchedFile := matched_file0, pageImages := [] }
  | .ok tm =>
    let target_pages := tm.1
    let matched_file := tm.2
    let rendered :=
      if target_pages ≠ [] ∧ pyOptStrTruthy matched_file ∧
          st1.uploads.contains (matched_file.getD "") then
        renderPages env.render (matched_file.getD "") target_pages
      else ([], [])
    let page_images := rendered.1
    let calls2 := calls1 ++ rendered.2
    if retrieved_docs0 = [] ∧
        ¬(page_images ≠ [] ∧ pyOptStrTruthy matched_file) then
      { outcome := .ok "No relevant documents found.", state := st1, calls := calls2
        usedDocs := [], usedMetas := [], matchedFile := matched_file
        pageImages := page_images }
    else
      let used := if retrieved_docs0 = [] then
          ([fallbackDocText], [fallbackMeta (matched_file.getD "") page_num])
        else (retrieved_docs0, retrieved_metas0)
      let file_index := listFilesModel st1.collection
      let merged_metas := used.2.map (mergeMeta file_index)
      let grouped := groupAndSort used.1 merged_metas
      let context0 := buildContext grouped
      let _context := if context0.length > 10000 ∧
          hasAnyWordPhrase ["list", "show", "many", "man"] query then
          "(context skipped — file listing not content-based)" else context0
      let calls3 := calls2 ++ [CallEv.chatMainCall]
      let outcome := if env.chatHasToolCalls then env.secondContent else env.chatContent
      let calls4 := if env.chatHasToolCalls then calls3 ++ [CallEv.chatToolRound] else calls3
      let st2 := { st1 with
        chatHistory := update_session_memory st1.chatHistory session_id query outcome }
      { outcome := .ok outcome, state := st2, calls := calls4
        usedDocs := used.1, usedMetas := merged_metas, matchedFile := matched_file
        pageImages := page_images }

/-- The ask_question route.  Returns the produced answer (or the uncaught
exception), the final application state, and the ordered trace of external
calls. -/
def askQuestion (env : Env) (username role query : String) (st : AppState) : AskResult :=
  let session_id := username ++ "-" ++ env.activeDbName
  let prior0 := get_session_context st.chatHistory session_id
  let active_file0 := get_last_active_file st session_id
  let _prior := if pyOptStrTruthy active_file0 then
      filterPriorContext prior0 (active_file0.getD "") else prior0
  if strStartsWith (strLower (strTrim query)) "debug" then
    earlyReturn ("<pre>" ++ env.debugDump st.collection ++ "</pre>") st []
  else
    let target_pages0 := extractTargetPages query
    let page_num : Option Int := target_pages0.head?
    let files := listFilesModel st.collection
    let available_files := files.filterMap (fun f => f.filename)
    let active_file := get_last_active_file st session_id
    let calls0 := [CallEv.classifyCall]
    let llm_raw := resolvedRaw env query available_files
    if containsSub llm_raw "COMMAND_LIST" then
      if files.length = 0 then earlyReturn "The database is empty." st calls0
      else earlyReturn (listCommandAnswer files) st calls0
    else if containsSub llm_raw "COMMAND_DELETE:" then
      if role ≠ "admin" then earlyReturn refusalAnswer st calls0
      else
        let target_filename := strTrim (strReplace llm_raw "COMMAND_DELETE:" "")
        match files.find? (fun f => f.filename == some target_filename) with
        | none => earlyReturn ("I understood you want to delete \x27" ++
            target_filename ++ "\x27, but I couldn\x27t find that exact file ID in the database.") st calls0
        | some mf =>
          match delete_file_model st mf.file_id with
          | .ok res =>
            { outcome := .ok ("<pre>Deleted \x27" ++ target_filename ++
                "\x27\n(File ID: " ++ mf.file_id ++ ")\n\nRemaining files: " ++
                toString res.1 ++ "</pre>")
              state := res.2, calls := calls0 ++ [.deleteCall mf.file_id]
              usedDocs := [], usedMetas := [], matchedFile := none, pageImages := [] }
          | .error e => earlyReturn ("Error deleting \x27" ++ target_filename ++
              "\x27: " ++ e) st calls0
    else
      retrievalPhase env session_id query st
        (computeValid env query available_files active_file llm_raw target_pages0 page_num)
        target_pages0 page_num calls0

/-! ## Concrete fixtures used by witnesses and counterexamples -/

/-- A minimal environment with inert external collaborators. -/
def mkEnv (cls : String) (qDocs : List String) (qMetas : List ChunkMeta) : Env :=
  { activeDbName := "maindb"
    classify := cls
    queryDocs := qDocs
    queryMetas := qMetas
    render := fun _ _ => []
    closeMatch1 := fun _ _ => none
    debugDump := fun _ => "dump"
    chatContent := "FINAL ANSWER"
    chatHasToolCalls := false
    secondContent := "SECOND ANSWER" }

def wMeta : ChunkMeta :=
  { file_id := some "report", source := some "Report.pdf"
    page := some (.intV 1), pages := some (.intV 3), place := some (.intV 1) }

def wState : AppState :=
  { chatHistory := [], activeFiles := []
    collection := [{ text := "Quarterly results.", meta := wMeta }]
    uploads := ["Report.pdf"] }

def demoFitzDoc : FitzDoc :=
  { pageCount := 2
    pageRect := fun _ => ⟨0, 0, 100, 200⟩
    pixmap := fun pi _ clip =>
      .ok ("img" ++ toString pi ++ (match clip with | none => "map" | some _ => "slice")) }

/-- The page order the original grouping claim asserts (numeric on ints,
vacuous on mixed typing, making the claim as weak as possible). -/
def pageLeB : MetaVal → MetaVal → Bool
  | .intV a, .intV b => a ≤ b
  | _, _ => true

/-- The within-group order the original claim asserts: ascending by
chunk_index then by page. -/
def claimChunkOrder (a b : RetChunk) : Bool :=
  (a.chunk_index < b.chunk_index) ||
    ((a.chunk_index == b.chunk_index) && pageLeB a.page b.page)

/-- Adjacent pairs of the list respect the claimed order. -/
def chainOrdered : List RetChunk → Bool
  | [] => true
  | [_] => true
  | a :: b :: rest => claimChunkOrder a b && chainOrdered (b :: rest)

/-- The original grouping claim, stated for one retrieval result. -/
def c2ClaimHolds (docs : List String) (metas : List ChunkMeta) : Prop :=
  ∀ g ∈ groupAndSort docs metas, chainOrdered g.2.chunks = true

/-- Two chunks of the same file with equal chunk_index and descending
pages: the stable sort leaves them in retrieval order. -/
def c2Docs : List String := ["first text", "second text"]

def c2Metas : List ChunkMeta :=
  [{ file_id := some "f", source := some "F.pdf", page := some (.intV 2)
     chunk_index := some 0 },
   { file_id := some "f", source := some "F.pdf", page := some (.intV 1)
     chunk_index := some 0 }]

/-! # Theorems -/

/-- C10: update_session_memory appends exactly the user row then the
assistant row for the given session in one atomic transition; every
existing row is left in place, so the turn log is append-only. -/
theorem update_session_memory_appends_exactly_two (db : List ChatRow)
    (sid u a : String) :
    update_session_memory db sid u a =
      db ++ [⟨sid, "user", u⟩, ⟨sid, "assistant", a⟩] ∧
    (update_session_memory db sid u a).take db.length = db ∧
    (update_session_memory db sid u a).length = db.length + 2 := by
  refine ⟨rfl, ?_, ?_⟩
  · simp [update_session_memory, List.take_left]
  · simp [update_session_memory]

/-- C6: with the default window of five turns, after seven appended turns
the returned context is exactly the last five turns, ten messages in
chronological order, each rendered as a User or Assistant line joined by
newlines; turns one and two are absent. -/
theorem get_session_context_window (db : List ChatRow) (sid : String)
    (h : db.filter (fun r => r.session_id == sid) = [])
    (u1 a1 u2 a2 u3 a3 u4 a4 u5 a5 u6 a6 u7 a7 : String) :
    get_session_context
      (update_session_memory
        (update_session_memory
          (update_session_memory
            (update_session_memory
              (update_session_memory
                (update_session_memory
                  (update_session_memory db sid u1 a1) sid u2 a2) sid u3 a3)
                sid u4 a4) sid u5 a5) sid u6 a6) sid u7 a7) sid 5 =
      strIntercalate "\n"
        ["User: " ++ u3, "Assistant: " ++ a3,
         "User: " ++ u4, "Assistant: " ++ a4,
         "User: " ++ u5, "Assistant: " ++ a5,
         "User: " ++ u6, "Assistant: " ++ a6,
         "User: " ++ u7, "Assistant: " ++ a7] := by
  simp [get_session_context, update_session_memory, List.filter_append, h]

theorem get_session_context_window_witness :
    ([] : List ChatRow).filter (fun r => r.session_id == "alice-maindb") = [] ∧
    get_session_context
      (update_session_memory
        (update_session_memory
          (update_session_memory
            (update_session_memory
              (update_session_memory
                (update_session_memory
                  (update_session_memory [] "alice-maindb" "q1" "r1")
                  "alice-maindb" "q2" "r2") "alice-maindb" "q3" "r3")
              "alice-maindb" "q4" "r4") "alice-maindb" "q5" "r5")
          "alice-maindb" "q6" "r6") "alice-maindb" "q7" "r7") "alice-maindb" 5 =
      strIntercalate "\n"
        ["User: " ++ "q3", "Assistant: " ++ "r3",
         "User: " ++ "q4", "Assistant: " ++ "r4",
         "User: " ++ "q5", "Assistant: " ++ "r5",
         "User: " ++ "q6", "Assistant: " ++ "r6",
         "User: " ++ "q7", "Assistant: " ++ "r7"] :=
  ⟨rfl, get_session_context_window [] "alice-maindb" rfl
    "q1" "r1" "q2" "r2" "q3" "r3" "q4" "r4" "q5" "r5" "q6" "r6" "q7" "r7"⟩

/-- C9: the renderer never raises: a failed document open yields the empty
list, a page number below one or beyond the last page yields the empty
list, and a nonempty result is exactly the full-page overview followed by
the top, bottom and center slices, in that order. -/
theorem render_page_to_base64_safe (d : FitzDoc) (pn : Int) (z : Rat) (e : String) :
    render_page_to_base64 (.error e) pn z = [] ∧
    ((pn < 1 ∨ (d.pageCount : Int) < pn) → render_page_to_base64 (.ok d) pn z = []) ∧
    (render_page_to_base64 (.ok d) pn z ≠ [] →
      ∃ m t b c,
        d.pixmap (pn - 1).toNat 2 none = .ok m ∧
        d.pixmap (pn - 1).toNat z (some (topClip (d.pageRect (pn - 1).toNat))) = .ok t ∧
        d.pixmap (pn - 1).toNat z (some (bottomClip (d.pageRect (pn - 1).toNat))) = .ok b ∧
        d.pixmap (pn - 1).toNat z (some (centerClip (d.pageRect (pn - 1).toNat))) = .ok c ∧
        render_page_to_base64 (.ok d) pn z = [m, t, b, c]) := by
  refine ⟨rfl, ?_, ?_⟩
  · intro hout
    have hcond : pn - 1 < 0 ∨ pn - 1 ≥ (d.pageCount : Int) := by omega
    unfold render_page_to_base64
    dsimp only
    rw [if_pos hcond]
  · intro hne
    unfold render_page_to_base64 at hne ⊢
    dsimp only at hne ⊢
    by_cases hrange : pn - 1 < 0 ∨ pn - 1 ≥ (d.pageCount : Int)
    · rw [if_pos hrange] at hne
      exact absurd rfl hne
    · rw [if_neg hrange] at hne ⊢
      cases hm : d.pixmap (pn - 1).toNat 2 none with
      | error err => rw [hm] at hne; exact absurd rfl hne
      | ok m =>
        rw [hm] at hne
        cases ht : d.pixmap (pn - 1).toNat z
            (some (topClip (d.pageRect (pn - 1).toNat))) with
        | error err => rw [ht] at hne; exact absurd rfl hne
        | ok t =>
          rw [ht] at hne
          cases hb : d.pixmap (pn - 1).toNat z
              (some (bottomClip (d.pageRect (pn - 1).toNat))) with
          | error err => rw [hb] at hne; exact absurd rfl hne
          | ok b =>
            rw [hb] at hne
            cases hc : d.pixmap (pn - 1).toNat z
                (some (centerClip (d.pageRect (pn - 1).toNat))) with
            | error err => rw [hc] at hne; exact absurd rfl hne
            | ok c => exact ⟨m, t, b, c, rfl, rfl, rfl, rfl, rfl⟩

theorem render_page_to_base64_safe_witness :
    ((0 : Int) < 1) ∧
    render_page_to_base64 (.ok demoFitzDoc) 0 3 = [] ∧
    render_page_to_base64 (.ok demoFitzDoc) 1 3 ≠ [] ∧
    (∃ m t b c,
      demoFitzDoc.pixmap ((1 : Int) - 1).toNat 2 none = .ok m ∧
      demoFitzDoc.pixmap ((1 : Int) - 1).toNat 3
        (some (topClip (demoFitzDoc.pageRect ((1 : Int) - 1).toNat))) = .ok t ∧
      demoFitzDoc.pixmap ((1 : Int) - 1).toNat 3
        (some (bottomClip (demoFitzDoc.pageRect ((1 : Int) - 1).toNat))) = .ok b ∧
      demoFitzDoc.pixmap ((1 : Int) - 1).toNat 3
        (some (centerClip (demoFitzDoc.pageRect ((1 : Int) - 1).toNat))) = .ok c ∧
      render_page_to_base64 (.ok demoFitzDoc) 1 3 = [m, t, b, c]) :=
  ⟨by decide,
   (render_page_to_base64_safe demoFitzDoc 0 3 "boom").2.1 (Or.inl (by decide)),
   by decide,
   (render_page_to_base64_safe demoFitzDoc 1 3 "boom").2.2 (by decide)⟩

/-- Equality of a strV-wrapped optional string with a strV literal. -/
theorem mapStrV_eq (x : Option String) (s : String) :
    x.map MetaVal.strV = some (.strV s) ↔ x = some s := by
  cases x <;> simp

/-- C1: for two resolved files and target page 3 the built filter is the
AND of the OR of the two per-file filters (file_id equals the lowercased
stem, or source equals the exact filename) with the OR of page equals 3
and page equals "3"; a chunk satisfies it exactly when its file_id or
source matches one of the two files and its page is 3 or "3". -/
theorem buildFilters_two_files_page_three (A B : String) (m : ChunkMeta) :
    buildFilters [A, B] [3] =
      some (.andf [.orf [one_file_filter A, one_file_filter B],
        .orf [.eqf "page" (.intV 3), .eqf "page" (.strV "3")]]) ∧
    (evalWhereOpt m (buildFilters [A, B] [3]) = true ↔
      ((m.file_id = some (to_file_id A) ∨ m.source = some A) ∨
       (m.file_id = some (to_file_id B) ∨ m.source = some B)) ∧
      (m.page = some (.intV 3) ∨ m.page = some (.strV "3"))) := by
  have hstruct : buildFilters [A, B] [3] =
      some (.andf [.orf [one_file_filter A, one_file_filter B],
        .orf [.eqf "page" (.intV 3), .eqf "page" (.strV "3")]]) := rfl
  refine ⟨hstruct, ?_⟩
  rw [hstruct]
  simp only [evalWhereOpt, evalWhere, evalAny, evalAll, one_file_filter, metaLookup,
    Bool.or_eq_true, Bool.and_eq_true, beq_iff_eq, Bool.or_false, Bool.and_true,
    mapStrV_eq]

/-- The keys after an upsert: unchanged on update, extended on insert. -/
theorem upsertGroup_keys (grouped : List (String × GroupInfo)) (doc : String)
    (meta : ChunkMeta) :
    (upsertGroup grouped doc meta).map Prod.fst =
      if (grouped.find? (fun g => g.1 == groupKey meta)).isSome
      then grouped.map Prod.fst
      else grouped.map Prod.fst ++ [groupKey meta] := by
  unfold upsertGroup
  cases hf : grouped.find? (fun g => g.1 == groupKey meta) with
  | some g0 => simp [hf, Function.comp_def, apply_ite Prod.fst]
  | none => simp [hf]

/-- Updating the single group holding the key adds exactly one chunk to the
total chunk count. -/
theorem sum_update_one (key : String) (c : RetChunk) :
    ∀ l : List (String × GroupInfo), (l.map Prod.fst).Nodup →
    (∃ g ∈ l, g.1 = key) →
    ((l.map (fun g => if g.1 == key
        then (g.1, { g.2 with chunks := g.2.chunks ++ [c] }) else g)).map
      (fun g => g.2.chunks.length)).sum =
    (l.map (fun g => g.2.chunks.length)).sum + 1 := by
  intro l
  induction l with
  | nil => rintro _ ⟨g, hg, _⟩; cases hg
  | cons hd tl ih =>
    intro hnd hex
    by_cases hh : hd.1 = key
    · have htl : ∀ g ∈ tl, (g.1 == key) = false := by
        intro g hg
        have hnin : hd.1 ∉ tl.map Prod.fst := (List.nodup_cons.mp hnd).1
        have hne : g.1 ≠ key := by
          intro he
          apply hnin
          have hmem : g.1 ∈ tl.map Prod.fst := List.mem_map_of_mem Prod.fst hg
          rwa [he, ← hh] at hmem
        simp [hne]
      have hmap : tl.map (fun g => if g.1 == key
          then (g.1, { g.2 with chunks := g.2.chunks ++ [c] }) else g) = tl := by
        calc tl.map (fun g => if g.1 == key
              then (g.1, { g.2 with chunks := g.2.chunks ++ [c] }) else g)
            = tl.map id := List.map_congr_left (fun g hg => by simp [htl g hg])
          _ = tl := List.map_id tl
      simp only [List.map_cons, List.sum_cons]
      rw [hmap]
      have hhd : (hd.1 == key) = true := beq_iff_eq.mpr hh
      simp [hhd]
      omega
    · have hex2 : ∃ g ∈ tl, g.1 = key := by
        rcases hex with ⟨g, hg, hgk⟩
        rcases List.mem_cons.mp hg with he | ht
        · exact absurd (he ▸ hgk) hh
        · exact ⟨g, ht, hgk⟩
      have hrec := ih (List.nodup_cons.mp hnd).2 hex2
      have hhd : (hd.1 == key) = false := by simp [hh]
      have hfhd : (if hd.1 == key
          then (hd.1, { hd.2 with chunks := hd.2.chunks ++ [c] }) else hd) = hd := by
        simp [hhd]
      simp only [List.map_cons, List.sum_cons, hfhd]
      rw [hrec]
      omega

/-- One upsert keeps keys distinct and adds exactly one chunk. -/
theorem upsertGroup_inv (grouped : List (String × GroupInfo)) (doc : String)
    (meta : ChunkMeta) (hnd : (grouped.map Prod.fst).Nodup) :
    ((upsertGroup grouped doc meta).map Prod.fst).Nodup ∧
    ((upsertGroup grouped doc meta).map (fun g => g.2.chunks.length)).sum =
      (grouped.map (fun g => g.2.chunks.length)).sum + 1 := by
  constructor
  · rw [upsertGroup_keys]
    cases hf : grouped.find? (fun g => g.1 == groupKey meta) with
    | some g0 => simpa using hnd
    | none =>
      have hkey : groupKey meta ∉ grouped.map Prod.fst := by
        intro hmem
        rcases List.mem_map.mp hmem with ⟨g, hg, hgk⟩
        have := List.find?_eq_none.mp hf g hg
        simp [hgk] at this
      simp [List.nodup_append, hnd, hkey]
  · cases hf : grouped.find? (fun g => g.1 == groupKey meta) with
    | some g0 =>
      have hmem := List.mem_of_find?_eq_some hf
      have hp := List.find?_some hf
      have hres : upsertGroup grouped doc meta = grouped.map (fun g =>
          if g.1 == groupKey meta
          then (g.1, { g.2 with chunks := g.2.chunks ++ [mkRetChunk doc meta] })
          else g) := by
        simp only [upsertGroup, hf]
      rw [hres]
      exact sum_update_one (groupKey meta) (mkRetChunk doc meta) grouped hnd
        ⟨g0, hmem, by simpa using hp⟩
    | none =>
      have hres : upsertGroup grouped doc meta = grouped ++ [(groupKey meta,
          { file_id := meta.file_id, source := meta.source,
            chunks := [mkRetChunk doc meta],
            place := meta.place.getD (MetaVal.strV "unknown"),
            pages := meta.pages.getD (MetaVal.strV "unknown") })] := by
        simp only [upsertGroup, hf]
      rw [hres]
      simp

/-- The grouping fold keeps keys distinct and puts every zipped pair into
exactly one group. -/
theorem groupChunks_inv :
    ∀ (pairs : List (String × ChunkMeta)) (acc : List (String × GroupInfo)),
    (acc.map Prod.fst).Nodup →
    ((pairs.foldl (fun grouped dm => upsertGroup grouped dm.1 dm.2) acc).map
      Prod.fst).Nodup ∧
    ((pairs.foldl (fun grouped dm => upsertGroup grouped dm.1 dm.2) acc).map
      (fun g => g.2.chunks.length)).sum =
      (acc.map (fun g => g.2.chunks.length)).sum + pairs.length := by
  intro pairs
  induction pairs with
  | nil => intro acc h; simpa using h
  | cons hd tl ih =>
    intro acc h
    have step := upsertGroup_inv acc hd.1 hd.2 h
    have rest := ih (upsertGroup acc hd.1 hd.2) step.1
    refine ⟨rest.1, ?_⟩
    simp only [List.foldl_cons] at *
    rw [rest.2, step.2, List.length_cons]
    omega

/-- C2 (amended): grouping is lossless with distinct keys, so no chunk
lands in two groups; within each group the chunks are sorted in ascending
order by chunk_index only, the stable sort leaving equal chunk_index
values in retrieval order (the source sort key is (chunk_index,
chunk_index), so page is not a sort key). -/
theorem grouping_lossless_and_sorted_by_chunk_index (docs : List String)
    (metas : List ChunkMeta) :
    ((groupAndSort docs metas).map Prod.fst).Nodup ∧
    ((groupAndSort docs metas).map (fun g => g.2.chunks.length)).sum =
      (docs.zip metas).length ∧
    ∀ g ∈ groupAndSort docs metas, List.Sorted chunkLe g.2.chunks := by
  have base := groupChunks_inv (docs.zip metas) [] (by simp)
  refine ⟨?_, ?_, ?_⟩
  · unfold groupAndSort
    have : ((groupChunks docs metas).map
        (fun g => (g.1, { g.2 with chunks := sortChunks g.2.chunks }))).map Prod.fst =
        (groupChunks docs metas).map Prod.fst := by
      simp [Function.comp_def]
    rw [this]
    exact base.1
  · unfold groupAndSort
    have : ((groupChunks docs metas).map
        (fun g => (g.1, { g.2 with chunks := sortChunks g.2.chunks }))).map
        (fun g => g.2.chunks.length) =
        (groupChunks docs metas).map (fun g => g.2.chunks.length) := by
      simp [Function.comp_def, sortChunks, List.length_insertionSort]
    rw [this]
    simpa using base.2
  · intro g hg
    unfold groupAndSort at hg
    rcases List.mem_map.mp hg with ⟨g0, _, hmap⟩
    rw [← hmap]
    exact List.sorted_insertionSort chunkLe g0.2.chunks

/-- C2 counterexample: two chunks of one file with equal chunk_index and
pages 2 then 1 stay in retrieval order, so groups are not sorted by
chunk_index then page as the original claim states. -/
theorem grouping_sorted_by_page_counterexample : ¬ c2ClaimHolds c2Docs c2Metas := by
  unfold c2ClaimHolds
  decide

theorem grouping_lossless_witness :
    (("f", (⟨some "f", some "F.pdf",
        [⟨"first text", 0, .intV 2⟩, ⟨"second text", 0, .intV 1⟩],
        .strV "unknown", .strV "unknown"⟩ : GroupInfo)) ∈
      groupAndSort c2Docs c2Metas) ∧
    List.Sorted chunkLe
      [(⟨"first text", 0, .intV 2⟩ : RetChunk), ⟨"second text", 0, .intV 1⟩] :=
  ⟨by decide,
   (grouping_lossless_and_sorted_by_chunk_index c2Docs c2Metas).2.2
     ("f", ⟨some "f", some "F.pdf",
       [⟨"first text", 0, .intV 2⟩, ⟨"second text", 0, .intV 1⟩],
       .strV "unknown", .strV "unknown"⟩) (by decide)⟩

/-- C7: the re-ranker leaves the targets untouched whenever an explicit
page was extracted; and for five candidates where only the third text
holds a visual keyword, the base scores are 5,4,3,2,1, the third candidate
scores 3+10=13, strictly above all others, and its page (with its source
file, when no file was matched yet) becomes the chosen visual target. -/
theorem rerank_only_without_pages_and_keyword_wins :
    (∀ (tp : List Int) (metas : List ChunkMeta) (docs : List String)
      (mf : Option String), tp ≠ [] →
      rerankVision tp metas docs mf = .ok (tp, mf)) ∧
    (∀ (m0 m1 m2 m3 m4 : ChunkMeta) (t0 t1 t2 t3 t4 : String)
      (mf : Option String) (p : Int),
      hasVisualKeyword t0 = false → hasVisualKeyword t1 = false →
      hasVisualKeyword t2 = true → hasVisualKeyword t3 = false →
      hasVisualKeyword t4 = false →
      m2.page = some (.intV p) →
      pyOptStrTruthy mf = false →
      (candidateScore 5 0 t0 = 5 ∧ candidateScore 5 1 t1 = 4 ∧
       candidateScore 5 2 t2 = 13 ∧ candidateScore 5 3 t3 = 2 ∧
       candidateScore 5 4 t4 = 1) ∧
      rerankVision [] [m0, m1, m2, m3, m4] [t0, t1, t2, t3, t4] mf =
        .ok ([p], m2.source)) := by
  constructor
  · intro tp metas docs mf htp
    unfold rerankVision
    rw [if_neg (fun hc => htp hc.1)]
  · intro m0 m1 m2 m3 m4 t0 t1 t2 t3 t4 mf p h0 h1 h2 h3 h4 hpage hmf
    refine ⟨⟨?_, ?_, ?_, ?_, ?_⟩, ?_⟩
    · simp [candidateScore, h0]
    · simp [candidateScore, h1]
    · simp [candidateScore, h2]
    · simp [candidateScore, h3]
    · simp [candidateScore, h4]
    · simp [rerankVision, candidateScore, h0, h1, h2, h3, h4, hpage, hmf,
        sortCandidatesDesc, metaValToInt, List.range_succ]

theorem rerank_witness :
    (([3] : List Int) ≠ []) ∧
    rerankVision [3] [wMeta] ["some text"] none = .ok ([3], none) ∧
    hasVisualKeyword "see figure 3" = true ∧
    ((candidateScore 5 0 "plain text one" = 5 ∧
      candidateScore 5 1 "plain text two" = 4 ∧
      candidateScore 5 2 "see figure 3" = 13 ∧
      candidateScore 5 3 "plain text four" = 2 ∧
      candidateScore 5 4 "plain text five" = 1) ∧
     rerankVision []
       [wMeta, wMeta, ⟨some "f2", some "Fig.pdf", some (.intV 7), none, none, none⟩,
        wMeta, wMeta]
       ["plain text one", "plain text two", "see figure 3", "plain text four",
        "plain text five"] none =
       .ok ([7], some "Fig.pdf")) :=
  ⟨by decide,
   rerank_only_without_pages_and_keyword_wins.1 [3] [wMeta] ["some text"] none
     (by decide),
   by decide,
   rerank_only_without_pages_and_keyword_wins.2 wMeta wMeta
     ⟨some "f2", some "Fig.pdf", some (.intV 7), none, none, none⟩ wMeta wMeta
     "plain text one" "plain text two" "see figure 3" "plain text four"
     "plain text five" none 7
     (by decide) (by decide) (by decide) (by decide) (by decide) rfl (by decide)⟩

/-- C3: when the file-inference output carries the delete token and the
caller is not an admin, the route answers with the refusal text and
mutates nothing: the whole state (vector collection, uploads, chat
history, active-file map) is unchanged, the file count reported by the
document index is identical, and no delete call is issued. -/
theorem delete_refused_for_non_admin (env : Env) (username role query : String)
    (st : AppState)
    (hd : strStartsWith (strLower (strTrim query)) "debug" = false)
    (hcd : containsSub (resolvedRaw env query
      ((listFilesModel st.collection).filterMap (fun f => f.filename)))
      "COMMAND_DELETE:" = true)
    (hcl : containsSub (resolvedRaw env query
      ((listFilesModel st.collection).filterMap (fun f => f.filename)))
      "COMMAND_LIST" = false)
    (hrole : role ≠ "admin") :
    askQuestion env username role query st =
      earlyReturn refusalAnswer st [CallEv.classifyCall] ∧
    (askQuestion env username role query st).state = st ∧
    (listFilesModel (askQuestion env username role query st).state.collection).length =
      (listFilesModel st.collection).length ∧
    ∀ fid, CallEv.deleteCall fid ∉ (askQuestion env username role query st).calls := by
  have hmain : askQuestion env username role query st =
      earlyReturn refusalAnswer st [CallEv.classifyCall] := by
    unfold askQuestion
    simp only [hd, Bool.false_eq_true, if_false, hcl, hcd, if_true, Bool.true_eq_false,
      ite_false, ite_true, hrole, ne_eq, not_false_eq_true]
  refine ⟨hmain, ?_, ?_, ?_⟩
  · rw [hmain]
    rfl
  · rw [hmain]
    rfl
  · intro fid
    rw [hmain]
    simp [earlyReturn]

theorem delete_refused_for_non_admin_witness :
    strStartsWith (strLower (strTrim "delete Report.pdf")) "debug" = false ∧
    containsSub (resolvedRaw (mkEnv "COMMAND_DELETE: Report.pdf" [] [])
      "delete Report.pdf"
      ((listFilesModel wState.collection).filterMap (fun f => f.filename)))
      "COMMAND_DELETE:" = true ∧
    containsSub (resolvedRaw (mkEnv "COMMAND_DELETE: Report.pdf" [] [])
      "delete Report.pdf"
      ((listFilesModel wState.collection).filterMap (fun f => f.filename)))
      "COMMAND_LIST" = false ∧
    ("user" : String) ≠ "admin" ∧
    askQuestion (mkEnv "COMMAND_DELETE: Report.pdf" [] []) "alice" "user"
      "delete Report.pdf" wState =
      earlyReturn refusalAnswer wState [CallEv.classifyCall] :=
  ⟨by decide, by decide, by decide, by decide,
   (delete_refused_for_non_admin (mkEnv "COMMAND_DELETE: Report.pdf" [] [])
     "alice" "user" "delete Report.pdf" wState
     (by decide) (by decide) (by decide) (by decide)).1⟩

/-- C4 counterexample: a query with the literal delete prefix does not
short-circuit before the LLM: the classification chat-model call is
issued on this concrete run. -/
theorem delete_not_before_llm_counterexample :
    strStartsWith "delete Report.pdf" "delete " = true ∧
    CallEv.classifyCall ∈
      (askQuestion (mkEnv "COMMAND_DELETE: Report.pdf" [] []) "alice" "user"
        "delete Report.pdf" wState).calls := by
  exact ⟨by decide, by decide⟩

/-- C4 (amended): the debug command is detected by literal prefix and
short-circuits before any LLM call (the call trace is empty); the delete
command is instead detected from the COMMAND_DELETE token in the
classification output, so it is intercepted after exactly that one LLM
call and before any embedding or main chat-completion call. -/
theorem admin_commands_short_circuit :
    (∀ (env : Env) (username role query : String) (st : AppState),
      strStartsWith (strLower (strTrim query)) "debug" = true →
      (askQuestion env username role query st).calls = [] ∧
      (askQuestion env username role query st).outcome =
        .ok ("<pre>" ++ env.debugDump st.collection ++ "</pre>")) ∧
    (∀ (env : Env) (username role query : String) (st : AppState),
      strStartsWith (strLower (strTrim query)) "debug" = false →
      containsSub (resolvedRaw env query
        ((listFilesModel st.collection).filterMap (fun f => f.filename)))
        "COMMAND_DELETE:" = true →
      containsSub (resolvedRaw env query
        ((listFilesModel st.collection).filterMap (fun f => f.filename)))
        "COMMAND_LIST" = false →
      CallEv.classifyCall ∈ (askQuestion env username role query st).calls ∧
      CallEv.chatMainCall ∉ (askQuestion env username role query st).calls ∧
      ∀ t, CallEv.embedCall t ∉ (askQuestion env username role query st).calls) := by
  constructor
  · intro env username role query st hd
    unfold askQuestion
    simp only [hd, if_true]
    exact ⟨rfl, rfl⟩
  · intro env username role query st hd hcd hcl
    unfold askQuestion
    simp only [hd, Bool.false_eq_true, if_false, hcl, hcd, if_true, ite_false, ite_true]
    by_cases hrole : role = "admin"
    · simp only [hrole, ne_eq, not_true_eq_false, if_false]
      split
      · exact ⟨by simp [earlyReturn], by simp [earlyReturn],
          fun t => by simp [earlyReturn]⟩
      · split
        · exact ⟨by simp, by simp, fun t => by simp⟩
        · exact ⟨by simp [earlyReturn], by simp [earlyReturn],
            fun t => by simp [earlyReturn]⟩
    · have hne : role ≠ "admin" := hrole
      simp only [ne_eq, hrole, not_false_eq_true, if_true]
      exact ⟨by simp [earlyReturn], by simp [earlyReturn],
        fun t => by simp [earlyReturn]⟩

/-- The render loop appends exactly one render event per target page. -/
theorem renderPages_snd (render : String → Int → List String) (file : String) :
    ∀ (pages : List Int) (acc : List PageImage × List CallEv),
    (pages.foldl (fun acc p =>
      let slices := render file p
      (acc.1 ++ slices.enum.map (fun ib =>
        { page := p, b64 := "data:image/png;base64," ++ ib.2, slice_index := ib.1 }),
       acc.2 ++ [.renderCall file p])) acc).2 =
      acc.2 ++ pages.map (fun p => CallEv.renderCall file p) := by
  intro pages
  induction pages with
  | nil => intro acc; simp
  | cons p ps ih => intro acc; simp [ih]

/-- Render events are never embedding events. -/
theorem filter_embed_renderCalls (file : String) (ps : List Int) :
    ((ps.map (fun p => CallEv.renderCall file p)).filter isEmbedEv) = [] := by
  induction ps with
  | nil => rfl
  | cons p ps ih => simp [isEmbedEv, ih]

/-- The render loop records no embedding events. -/
theorem filter_embed_renderPages (render : String → Int → List String)
    (file : String) (ps : List Int) :
    ((renderPages render file ps).2.filter isEmbedEv) = [] := by
  unfold renderPages
  rw [renderPages_snd]
  simp [filter_embed_renderCalls]

/-- The retrieval phase records exactly one embedding call, with the
placeholder text when the first extracted page is truthy. -/
theorem retrievalPhase_embed_calls (env : Env) (session_id query : String)
    (st : AppState) (mfs : List String) (tp0 : List Int) (pn : Option Int)
    (calls0 : List CallEv) :
    ((retrievalPhase env session_id query st mfs tp0 pn calls0).calls.filter
        isEmbedEv) =
      calls0.filter isEmbedEv ++
        [CallEv.embedCall (if pyOptIntTruthy pn then "page lookup" else query)] := by
  unfold retrievalPhase
  dsimp only
  split
  · simp [List.filter_append, isEmbedEv]
  · repeat' split
    all_goals simp [List.filter_append, filter_embed_renderPages, isEmbedEv]

/-- C5 (amended): whenever the route reaches retrieval (no debug, list or
delete interception), it issues exactly one embedding call, whose text is
the fixed placeholder "page lookup" whenever an explicit page reference
was extracted from the query (first extracted page nonzero), and the
literal query text otherwise — independent of whether the query also
carries a semantic question. -/
theorem embedding_text_rule (env : Env) (username role query : String)
    (st : AppState)
    (hd : strStartsWith (strLower (strTrim query)) "debug" = false)
    (hcl : containsSub (resolvedRaw env query
      ((listFilesModel st.collection).filterMap (fun f => f.filename)))
      "COMMAND_LIST" = false)
    (hcd : containsSub (resolvedRaw env query
      ((listFilesModel st.collection).filterMap (fun f => f.filename)))
      "COMMAND_DELETE:" = false) :
    ((askQuestion env username role query st).calls.filter isEmbedEv) =
      [CallEv.embedCall (if pyOptIntTruthy (extractTargetPages query).head?
        then "page lookup" else query)] := by
  unfold askQuestion
  simp only [hd, Bool.false_eq_true, if_false, hcl, hcd, ite_false, ite_true]
  rw [retrievalPhase_embed_calls]
  simp [isEmbedEv]

/-- C5 counterexample: the query asks a semantic question (summarize) yet
names page 3, and the embedded text is the placeholder, not the literal
query text — so the exception is not limited to page lookups with no
semantic question. -/
theorem embedding_placeholder_counterexample :
    ((askQuestion (mkEnv "Report.pdf" ["Quarterly results."] [wMeta]) "alice" "user"
        "summarize page 3 for me" wState).calls.filter isEmbedEv) =
      [CallEv.embedCall "page lookup"] ∧
    "page lookup" ≠ "summarize page 3 for me" :=
  ⟨by decide, by decide⟩

theorem embedding_text_rule_witness :
    strStartsWith (strLower (strTrim "tell me about the report")) "debug" = false ∧
    containsSub (resolvedRaw (mkEnv "Report.pdf" ["Quarterly results."] [wMeta])
      "tell me about the report"
      ((listFilesModel wState.collection).filterMap (fun f => f.filename)))
      "COMMAND_LIST" = false ∧
    containsSub (resolvedRaw (mkEnv "Report.pdf" ["Quarterly results."] [wMeta])
      "tell me about the report"
      ((listFilesModel wState.collection).filterMap (fun f => f.filename)))
      "COMMAND_DELETE:" = false ∧
    ((askQuestion (mkEnv "Report.pdf" ["Quarterly results."] [wMeta]) "alice" "user"
        "tell me about the report" wState).calls.filter isEmbedEv) =
      [CallEv.embedCall
        (if pyOptIntTruthy (extractTargetPages "tell me about the report").head?
         then "page lookup" else "tell me about the report")] :=
  ⟨by decide, by decide, by decide,
   embedding_text_rule (mkEnv "Report.pdf" ["Quarterly results."] [wMeta])
     "alice" "user" "tell me about the report" wState
     (by decide) (by decide) (by decide)⟩

/-- Updating the active-file pointer does not touch the vector collection. -/
theorem set_last_active_file_collection (st : AppState) (sid f : String) :
    (set_last_active_file st sid f).collection = st.collection := by
  unfold set_last_active_file
  split <;> rfl

/-- The events of the render loop are exactly one render call per page. -/
theorem renderPages_events (render : String → Int → List String) (file : String)
    (ps : List Int) :
    (renderPages render file ps).2 = ps.map (fun p => CallEv.renderCall file p) := by
  unfold renderPages
  rw [renderPages_snd]
  simp

/-- With an empty retrieval the re-ranker is a no-op. -/
theorem rerankVision_nil_docs (tp : List Int) (metas : List ChunkMeta)
    (mf : Option String) :
    rerankVision tp metas [] mf = .ok (tp, mf) := by
  unfold rerankVision
  exact if_neg (fun hcx => hcx.2.2 rfl)

/-- The retrieval phase on an empty vector response: no exception; either
no page image was rendered and the plain no-documents answer is returned
before any chat call, or the placeholder chunk attributed to the matched
file is synthesized and the pipeline continues into the chat call. -/
theorem retrievalPhase_empty_docs (env : Env) (sid query : String) (st : AppState)
    (mfs : List String) (tp0 : List Int) (pn : Option Int) (calls0 : List CallEv)
    (hdocs : env.queryDocs = []) (hc0 : CallEv.chatMainCall ∉ calls0) :
    (retrievalPhase env sid query st mfs tp0 pn calls0).matchedFile = mfs.head? ∧
    (retrievalPhase env sid query st mfs tp0 pn calls0).outcome.isOk = true ∧
    (¬((retrievalPhase env sid query st mfs tp0 pn calls0).pageImages ≠ [] ∧
        pyOptStrTruthy mfs.head? = true) →
      (retrievalPhase env sid query st mfs tp0 pn calls0).outcome =
        .ok "No relevant documents found." ∧
      CallEv.chatMainCall ∉ (retrievalPhase env sid query st mfs tp0 pn calls0).calls) ∧
    (((retrievalPhase env sid query st mfs tp0 pn calls0).pageImages ≠ [] ∧
        pyOptStrTruthy mfs.head? = true) →
      (retrievalPhase env sid query st mfs tp0 pn calls0).usedDocs = [fallbackDocText] ∧
      (retrievalPhase env sid query st mfs tp0 pn calls0).usedMetas =
        [mergeMeta (listFilesModel st.collection)
          (fallbackMeta (mfs.head?.getD "") pn)] ∧
      CallEv.chatMainCall ∈ (retrievalPhase env sid query st mfs tp0 pn calls0).calls) := by
  unfold retrievalPhase
  dsimp only
  rw [hdocs, rerankVision_nil_docs]
  dsimp only
  generalize hst1 : (if pyOptStrTruthy mfs.head? = true
      then set_last_active_file st sid (mfs.head?.getD "") else st) = st1v
  have hcol : st1v.collection = st.collection := by
    rw [← hst1]
    split <;> simp [set_last_active_file_collection]
  generalize hrend : (if tp0 ≠ [] ∧ pyOptStrTruthy mfs.head? = true ∧
      st1v.uploads.contains (mfs.head?.getD "") = true
      then renderPages env.render (mfs.head?.getD "") tp0
      else (([], []) : List PageImage × List CallEv)) = rend
  have hrendEv : ∀ ev ∈ rend.2, ∃ p, ev = CallEv.renderCall (mfs.head?.getD "") p := by
    rw [← hrend]
    split
    · rw [renderPages_events]
      intro ev hev
      rcases List.mem_map.mp hev with ⟨p, _, hp⟩
      exact ⟨p, hp.symm⟩
    · intro ev hev
      simp at hev
  split
  · rename_i hcond
    refine ⟨rfl, rfl, ?_, ?_⟩
    · intro _
      refine ⟨rfl, ?_⟩
      intro hmem
      rcases List.mem_append.mp hmem with hmem1 | hmem2
      · rcases List.mem_append.mp hmem1 with hmem3 | hmem4
        · exact hc0 hmem3
        · simp at hmem4
      · rcases hrendEv _ hmem2 with ⟨p, hp⟩
        cases hp
    · intro hcontra
      exact absurd hcontra hcond.2
  · rename_i hcond
    have hX : rend.1 ≠ [] ∧ pyOptStrTruthy mfs.head? = true := by
      by_contra hnx
      exact hcond ⟨rfl, hnx⟩
    refine ⟨rfl, rfl, ?_, ?_⟩
    · intro hn
      exact absurd hX hn
    · intro _
      refine ⟨by simp, ?_, ?_⟩
      · simp [hcol]
      · split <;> simp [List.mem_append]

/-- C8: when the vector query returns zero text documents the route raises
no exception: if at least one page image was rendered for a truthy matched
file it synthesizes the single placeholder chunk attributed to that file
(source and normalized file_id) and continues into the chat call with
image-only evidence; otherwise it returns the plain no-documents answer
without any chat call. -/
theorem empty_retrieval_no_crash (env : Env) (username role query : String)
    (st : AppState)
    (hdocs : env.queryDocs = [])
    (hd : strStartsWith (strLower (strTrim query)) "debug" = false)
    (hcl : containsSub (resolvedRaw env query
      ((listFilesModel st.collection).filterMap (fun f => f.filename)))
      "COMMAND_LIST" = false)
    (hcd : containsSub (resolvedRaw env query
      ((listFilesModel st.collection).filterMap (fun f => f.filename)))
      "COMMAND_DELETE:" = false) :
    (askQuestion env username role query st).outcome.isOk = true ∧
    (¬((askQuestion env username role query st).pageImages ≠ [] ∧
        pyOptStrTruthy (askQuestion env username role query st).matchedFile = true) →
      (askQuestion env username role query st).outcome =
        .ok "No relevant documents found." ∧
      CallEv.chatMainCall ∉ (askQuestion env username role query st).calls) ∧
    (((askQuestion env username role query st).pageImages ≠ [] ∧
        pyOptStrTruthy (askQuestion env username role query st).matchedFile = true) →
      (askQuestion env username role query st).usedDocs = [fallbackDocText] ∧
      (askQuestion env username role query st).usedMetas =
        [mergeMeta (listFilesModel st.collection)
          (fallbackMeta ((askQuestion env username role query st).matchedFile.getD "")
            (extractTargetPages query).head?)] ∧
      CallEv.chatMainCall ∈ (askQuestion env username role query st).calls) := by
  have hred : askQuestion env username role query st =
      retrievalPhase env (username ++ "-" ++ env.activeDbName) query st
        (computeValid env query
          ((listFilesModel st.collection).filterMap (fun f => f.filename))
          (get_last_active_file st (username ++ "-" ++ env.activeDbName))
          (resolvedRaw env query
            ((listFilesModel st.collection).filterMap (fun f => f.filename)))
          (extractTargetPages query) (extractTargetPages query).head?)
        (extractTargetPages query) (extractTargetPages query).head?
        [CallEv.classifyCall] := by
    unfold askQuestion
    simp only [hd, Bool.false_eq_true, if_false, hcl, hcd, ite_false, ite_true]
  have base := retrievalPhase_empty_docs env (username ++ "-" ++ env.activeDbName)
    query st
    (computeValid env query
      ((listFilesModel st.collection).filterMap (fun f => f.filename))
      (get_last_active_file st (username ++ "-" ++ env.activeDbName))
      (resolvedRaw env query
        ((listFilesModel st.collection).filterMap (fun f => f.filename)))
      (extractTargetPages query) (extractTargetPages query).head?)
    (extractTargetPages query) (extractTargetPages query).head?
    [CallEv.classifyCall] hdocs (by simp)
  rw [hred, base.1]
  exact ⟨base.2.1, base.2.2.1, base.2.2.2⟩

theorem empty_retrieval_no_crash_witness :
    (mkEnv "Report.pdf" [] [] : Env).queryDocs = [] ∧
    (askQuestion (mkEnv "Report.pdf" [] []) "alice" "user"
      "tell me about the report" wState).outcome.isOk = true ∧
    (askQuestion (mkEnv "Report.pdf" [] []) "alice" "user"
      "tell me about the report" wState).outcome =
      .ok "No relevant documents found." :=
  ⟨rfl,
   (empty_retrieval_no_crash (mkEnv "Report.pdf" [] []) "alice" "user"
     "tell me about the report" wState rfl (by decide) (by decide) (by decide)).1,
   ((empty_retrieval_no_crash (mkEnv "Report.pdf" [] []) "alice" "user"
     "tell me about the report" wState rfl (by decide) (by decide) (by decide)).2.1
     (by decide)).1⟩

theorem admin_commands_short_circuit_witness :
    strStartsWith (strLower (strTrim "debug metadata")) "debug" = true ∧
    (askQuestion (mkEnv "irrelevant" [] []) "alice" "user" "debug metadata"
      wState).calls = [] ∧
    strStartsWith (strLower (strTrim "delete Report.pdf")) "debug" = false ∧
    CallEv.classifyCall ∈ (askQuestion (mkEnv "COMMAND_DELETE: Report.pdf" [] [])
      "alice" "user" "delete Report.pdf" wState).calls ∧
    CallEv.chatMainCall ∉ (askQuestion (mkEnv "COMMAND_DELETE: Report.pdf" [] [])
      "alice" "user" "delete Report.pdf" wState).calls :=
  ⟨by decide,
   (admin_commands_short_circuit.1 (mkEnv "irrelevant" [] []) "alice" "user"
     "debug metadata" wState (by decide)).1,
   by decide,
   (admin_commands_short_circuit.2 (mkEnv "COMMAND_DELETE: Report.pdf" [] [])
     "alice" "user" "delete Report.pdf" wState
     (by decide) (by decide) (by decide)).1,
   (admin_commands_short_circuit.2 (mkEnv "COMMAND_DELETE: Report.pdf" [] [])
     "alice" "user" "delete Report.pdf" wState
     (by decide) (by decide) (by decide)).2.1⟩

end RagAI
